import Mathlib

/-!
Verification of the egress-side postprocessor pipeline of
`tremor-runtime` (`src/postprocessor.rs`): the stage abstraction, the
chain executor `postprocess`, the flush coordinator `finish`, the
registry (`lookup_with_config`, `make_postprocessors`), and the concrete
framing stages (base64, length prefixing, textual length prefixing,
ingress-timestamp attachment).

Modelling conventions:
* a byte buffer is a `List Nat` (every byte the source writes is `< 256`);
* Rust `Result<T>` becomes `Except String T` with the error text carried
  verbatim;
* `nanotime()` (the egress timestamp captured once at the top of
  `postprocess`) is passed in as an explicit `egress_ns` argument;
* the `error!` log macro in `finish` is modelled by returning the list of
  emitted log lines alongside the result;
* the compression stages delegate their byte transform to external
  libraries (libflate, xz2, snap, lz4, zstd) that are not part of this
  repository; those transforms, and the chunking transform of the `gelf`
  module (not present in the inspected sources), are taken as parameters
  bundled in `ExternalLibs`.
-/

namespace Tremor

/-- A byte buffer: the unit of data flowing through the pipeline. -/
abbrev Bytes := List Nat

/-- Shallow embedding of the `Postprocessor` trait: a canonical name, the
steady-state transform `process(ingres_ns, egress_ns, data)`, and the
terminal `finish(data)` operation. -/
structure Postprocessor where
  name : String
  process : Nat → Nat → Bytes → Except String (List Bytes)
  finish : Option Bytes → Except String (List Bytes)

/-- The trait's default `finish` implementation: `Ok(vec![])`. -/
def defaultFinish (_ : Option Bytes) : Except String (List Bytes) :=
  .ok []

/-- Big-endian 8-byte encoding of a 64-bit value, as written by
`write_u64::<BigEndian>` (values are truncated to 64 bits bytewise). -/
def u64BE (n : Nat) : Bytes :=
  [n / 72057594037927936 % 256, n / 281474976710656 % 256,
   n / 1099511627776 % 256, n / 4294967296 % 256,
   n / 16777216 % 256, n / 65536 % 256, n / 256 % 256, n % 256]

/-- Reads the leading 8 bytes of a buffer as a big-endian 64-bit value
(the inverse reading direction of `u64BE`); shorter buffers decode to 0. -/
def decodeU64BE : Bytes → Nat
  | b0 :: b1 :: b2 :: b3 :: b4 :: b5 :: b6 :: b7 :: _ =>
    ((((((b0 * 256 + b1) * 256 + b2) * 256 + b3) * 256 + b4) * 256 + b5)
        * 256 + b6) * 256 + b7
  | _ => 0

/-- The bytes of a string of ASCII characters, as Rust's
`str::as_bytes` / `String::into_bytes` produce for ASCII content. -/
def strBytes (s : String) : Bytes :=
  s.data.map Char.toNat

/-- Value of one 6-bit group in the standard base64 alphabet
(`A`-`Z`, `a`-`z`, `0`-`9`, `+`, `/`). -/
def base64Char (n : Nat) : Nat :=
  if n < 26 then 65 + n
  else if n < 52 then 97 + (n - 26)
  else if n < 62 then 48 + (n - 52)
  else if n = 62 then 43
  else 47

/-- Standard padded base64 encoding (the algorithm of the `base64` crate
with the standard alphabet), over byte lists. -/
def base64Encode : Bytes → Bytes
  | [] => []
  | [b0] =>
    let x := b0 % 256 * 65536
    [base64Char (x / 262144 % 64), base64Char (x / 4096 % 64), 61, 61]
  | [b0, b1] =>
    let x := b0 % 256 * 65536 + b1 % 256 * 256
    [base64Char (x / 262144 % 64), base64Char (x / 4096 % 64),
     base64Char (x / 64 % 64), 61]
  | b0 :: b1 :: b2 :: rest =>
    let x := b0 % 256 * 65536 + b1 % 256 * 256 + b2 % 256
    base64Char (x / 262144 % 64) :: base64Char (x / 4096 % 64) ::
      base64Char (x / 64 % 64) :: base64Char (x % 64) :: base64Encode rest

/-- `Base64::process`: one output frame, the base64-encoded input. -/
def Base64.process (_ingres_ns _egress_ns : Nat) (data : Bytes) :
    Except String (List Bytes) :=
  .ok [base64Encode data]

/-- The `Base64` stage as a trait object (default `finish`). -/
def base64Stage : Postprocessor :=
  { name := "base64", process := Base64.process, finish := defaultFinish }

/-- `AttachIngresTs::process`: prepends the 8-byte big-endian ingress
timestamp to the payload; one output frame. -/
def AttachIngresTs.process (ingres_ns _egress_ns : Nat) (data : Bytes) :
    Except String (List Bytes) :=
  .ok [u64BE ingres_ns ++ data]

/-- The `AttachIngresTs` stage as a trait object. -/
def attachIngresTsStage : Postprocessor :=
  { name := "attach-ingress-ts", process := AttachIngresTs.process,
    finish := defaultFinish }

/-- `LengthPrefix::process`: prepends the 8-byte big-endian payload
length to the payload; one output frame. -/
def LengthPrefix.process (_ingres_ns _egress_ns : Nat) (data : Bytes) :
    Except String (List Bytes) :=
  .ok [u64BE data.length ++ data]

/-- The `LengthPrefix` stage as a trait object. -/
def lengthPrefixStage : Postprocessor :=
  { name := "length-prefix", process := LengthPrefix.process,
    finish := defaultFinish }

/-- `TextualLength::process`: the decimal ASCII text of the payload
length, a space byte (32), then the payload; one output frame. -/
def TextualLength.process (_ingres_ns _egress_ns : Nat) (data : Bytes) :
    Except String (List Bytes) :=
  let size := data.length
  let digits := strBytes (Nat.repr size)
  .ok [digits ++ 32 :: data]

/-- The `TextualLength` stage as a trait object. -/
def textualLengthStage : Postprocessor :=
  { name := "textual-length-prefix", process := TextualLength.process,
    finish := defaultFinish }

example : base64Encode (strBytes "snot") = strBytes "c25vdA==" := by decide
example : TextualLength.process 42 23 [1, 2, 3] = .ok [[51, 32, 1, 2, 3]] := rfl

/-- Byte transforms performed by code outside this repository: the
compression libraries wrapped by the `Gzip`, `Zlib`, `Xz2`, `Snappy`,
`Lz4` and `Zstd` stages, and the chunking transform of the `gelf`
module (whose source is not among the inspected files). Each may fail
with a library error, as the corresponding Rust calls may. -/
structure ExternalLibs where
  gzip : Bytes → Except String Bytes
  zlib : Bytes → Except String Bytes
  xz2 : Bytes → Except String Bytes
  snappy : Bytes → Except String Bytes
  lz4 : Bytes → Except String Bytes
  zstd : Bytes → Except String Bytes
  gelf : Bytes → Except String (List Bytes)

/-- The `Gzip` stage: compresses the whole payload as one block via the
external libflate encoder; one output frame. -/
def gzipStage (libs : ExternalLibs) : Postprocessor :=
  { name := "gzip", process := fun _ _ d => (libs.gzip d).map ([·]),
    finish := defaultFinish }

/-- The `Zlib` stage: one frame, the zlib-compressed payload. -/
def zlibStage (libs : ExternalLibs) : Postprocessor :=
  { name := "zlib", process := fun _ _ d => (libs.zlib d).map ([·]),
    finish := defaultFinish }

/-- The `Xz2` stage: one frame, the xz-compressed payload. -/
def xz2Stage (libs : ExternalLibs) : Postprocessor :=
  { name := "xz2", process := fun _ _ d => (libs.xz2 d).map ([·]),
    finish := defaultFinish }

/-- The `Snappy` stage: one frame, the snappy-compressed payload. -/
def snappyStage (libs : ExternalLibs) : Postprocessor :=
  { name := "snappy", process := fun _ _ d => (libs.snappy d).map ([·]),
    finish := defaultFinish }

/-- The `Lz4` stage: one frame, the lz4-compressed payload. -/
def lz4Stage (libs : ExternalLibs) : Postprocessor :=
  { name := "lz4", process := fun _ _ d => (libs.lz4 d).map ([·]),
    finish := defaultFinish }

/-- The `Zstd` stage: one frame, the zstd-compressed payload. -/
def zstdStage (libs : ExternalLibs) : Postprocessor :=
  { name := "zstd", process := fun _ _ d => (libs.zstd d).map ([·]),
    finish := defaultFinish }

/-- The `Gelf` chunking stage lives in module `gelf`, which is not among
the inspected sources; its fan-out transform is taken from
`ExternalLibs`. Modelled from the spec: name per the registry key,
transform opaque. -/
def gelfStage (libs : ExternalLibs) : Postprocessor :=
  { name := "gelf-chunking", process := fun _ _ d => libs.gelf d,
    finish := defaultFinish }

/-- Modelled from the spec: the line-join stage (module `join` is not
among the inspected sources). Per spec 4.5 it holds a configurable
separator, newline by default, and appends it to each record
(immediate-emit minimum contract). -/
def joinStage (separator : Bytes) : Postprocessor :=
  { name := "join", process := fun _ _ d => .ok [d ++ separator],
    finish := defaultFinish }

/-- Modelled from the spec: `Join::from_config` — constructs the
line-join stage from its optional configuration, the configured
separator bytes, defaulting to a single newline. -/
def Join.from_config (config : Option Bytes) : Except String Postprocessor :=
  .ok (joinStage (config.getD [10]))

/-- A stage configuration: a stage name plus free-form configuration
(of which only the join stage's separator is consumed here). -/
structure PostprocessorConfig where
  name : String
  config : Option Bytes

/-- `lookup_with_config`: maps a stage configuration to a constructed
stage; an unrecognized name is the single error case. -/
def lookup_with_config (libs : ExternalLibs) (config : PostprocessorConfig) :
    Except String Postprocessor :=
  match config.name with
  | "join" => Join.from_config config.config
  | "lines" => .ok (joinStage [10])
  | "base64" => .ok base64Stage
  | "gzip" => .ok (gzipStage libs)
  | "zlib" => .ok (zlibStage libs)
  | "xz2" => .ok (xz2Stage libs)
  | "snappy" => .ok (snappyStage libs)
  | "lz4" => .ok (lz4Stage libs)
  | "ingest-ns" => .ok attachIngresTsStage
  | "length-prefixed" => .ok lengthPrefixStage
  | "gelf-chunking" => .ok (gelfStage libs)
  | "textual-length-prefix" => .ok textualLengthStage
  | "zstd" => .ok (zstdStage libs)
  | name => .error ("Postprocessor \x27" ++ name ++ "\x27 not found.")

/-- `lookup`: backwards-compatible lookup by bare name (default,
empty configuration). -/
def lookup (libs : ExternalLibs) (name : String) : Except String Postprocessor :=
  lookup_with_config libs { name := name, config := none }

/-- `make_postprocessors`: looks every configuration up in order,
short-circuiting at the first failure (Rust's
`iter().map(lookup_with_config).collect::<Result<_>>()`). -/
def make_postprocessors (libs : ExternalLibs) :
    List PostprocessorConfig → Except String (List Postprocessor)
  | [] => .ok []
  | c :: cs =>
    match lookup_with_config libs c with
    | .error e => .error e
    | .ok pp => (make_postprocessors libs cs).map (pp :: ·)

/-- The error enrichment `postprocess` applies to a failing stage
invocation: `format!("[Connector::{alias}] Postprocessor error {e}")`. -/
def enrichErr (streamAlias e : String) : String :=
  "[Connector::" ++ streamAlias ++ "] Postprocessor error " ++ e

/-- The inner loop of `postprocess`: runs one stage over every buffer of
the working set `ds`, appending each result to the accumulator `data1`,
aborting at the first (enriched) error. -/
def postprocessInner (pp : Postprocessor) (ingres_ns egress_ns : Nat)
    (streamAlias : String) : List Bytes → List Bytes → Except String (List Bytes)
  | [], data1 => .ok data1
  | d :: ds, data1 =>
    match Except.mapError (enrichErr streamAlias) (pp.process ingres_ns egress_ns d) with
    | .error e => .error e
    | .ok r => postprocessInner pp ingres_ns egress_ns streamAlias ds (data1 ++ r)

/-- The outer loop of `postprocess`: folds the working set through the
chain, swapping in each stage's concatenated output. -/
def postprocessLoop (ingres_ns egress_ns : Nat) (streamAlias : String) :
    List Postprocessor → List Bytes → Except String (List Bytes)
  | [], data => .ok data
  | pp :: rest, data =>
    match postprocessInner pp ingres_ns egress_ns streamAlias data [] with
    | .error e => .error e
    | .ok d => postprocessLoop ingres_ns egress_ns streamAlias rest d

/-- `postprocess`: seeds the working set with the single input payload
and runs the chain. `egress_ns` stands for the `nanotime()` captured
once at entry. -/
def postprocess (postprocessors : List Postprocessor)
    (ingres_ns egress_ns : Nat) (data : Bytes) (streamAlias : String) :
    Except String (List Bytes) :=
  postprocessLoop ingres_ns egress_ns streamAlias postprocessors [data]

/-- The log line `finish` emits when a stage's finish fails:
`format!("[Connector::{alias}] Postprocessor '{name}' finish error: {e}")`. -/
def finishErrLine (streamAlias name e : String) : String :=
  "[Connector::" ++ streamAlias ++ "] Postprocessor \x27" ++ name ++
    "\x27 finish error: " ++ e

/-- The inner loop of `finish`: runs one stage's `finish(Some(d))` over
every held buffer, concatenating results, aborting at the first error
(which the caller logs). -/
def finishInner (pp : Postprocessor) :
    List Bytes → List Bytes → Except String (List Bytes)
  | [], data1 => .ok data1
  | d :: ds, data1 =>
    match pp.finish (some d) with
    | .error e => .error e
    | .ok r => finishInner pp ds (data1 ++ r)

/-- The tail loop of `finish` over the stages after the first, also
returning the log lines emitted through `error!`. -/
def finishLoop (streamAlias : String) : List Postprocessor → List Bytes →
    List String × Except String (List Bytes)
  | [], data => ([], .ok data)
  | pp :: rest, data =>
    match finishInner pp data [] with
    | .error e => ([finishErrLine streamAlias pp.name e], .error e)
    | .ok d => finishLoop streamAlias rest d

/-- `finish`: the flush coordinator. The first stage's `finish(None)`
seeds the working set; each later stage's `finish(Some(_))` is run per
held buffer. Returns the emitted log lines and the result. -/
def finish (postprocessors : List Postprocessor) (streamAlias : String) :
    List String × Except String (List Bytes) :=
  match postprocessors with
  | [] => ([], .ok [])
  | head :: tail =>
    match head.finish none with
    | .error e => ([finishErrLine streamAlias head.name e], .error e)
    | .ok d => finishLoop streamAlias tail d

/-- Specification of one executor step (spec 4.2): invoke `process` on
every buffer of the working set and concatenate the output sequences in
buffer order, each failure enriched and aborting the step. -/
def stageFanOut (pp : Postprocessor) (ingres_ns egress_ns : Nat)
    (streamAlias : String) : List Bytes → Except String (List Bytes)
  | [] => .ok []
  | b :: bs =>
    match Except.mapError (enrichErr streamAlias) (pp.process ingres_ns egress_ns b) with
    | .error e => .error e
    | .ok r => (stageFanOut pp ingres_ns egress_ns streamAlias bs).map (r ++ ·)

/-- Specification of the executor fold: replace the working set by each
stage's fan-out in chain order. -/
def chainExecLoop (ingres_ns egress_ns : Nat) (streamAlias : String) :
    List Postprocessor → List Bytes → Except String (List Bytes)
  | [], ws => .ok ws
  | pp :: rest, ws =>
    match stageFanOut pp ingres_ns egress_ns streamAlias ws with
    | .error e => .error e
    | .ok ws1 => chainExecLoop ingres_ns egress_ns streamAlias rest ws1

/-- The chain executor as the spec words it (spec 4.2): seed the working
set with the single input payload and fold the stages over it. -/
def chainExecSpec (postprocessors : List Postprocessor)
    (ingres_ns egress_ns : Nat) (data : Bytes) (streamAlias : String) :
    Except String (List Bytes) :=
  chainExecLoop ingres_ns egress_ns streamAlias postprocessors [data]

/-- Specification of one flush step (spec 4.3): invoke `finish(Some(_))`
once per held buffer and concatenate results in order. -/
def flushFanOut (pp : Postprocessor) : List Bytes → Except String (List Bytes)
  | [] => .ok []
  | b :: bs =>
    match pp.finish (some b) with
    | .error e => .error e
    | .ok r => (flushFanOut pp bs).map (r ++ ·)

/-- Specification of the flush fold over the stages after the first. -/
def flushLoop : List Postprocessor → List Bytes → Except String (List Bytes)
  | [], ws => .ok ws
  | pp :: rest, ws =>
    match flushFanOut pp ws with
    | .error e => .error e
    | .ok ws1 => flushLoop rest ws1

/-- The flush coordinator as the spec words it (spec 4.3): empty chain
gives an empty result; otherwise the first stage's `finish(None)` seeds
the working set, folded through the remaining stages. -/
def flushSpec (postprocessors : List Postprocessor) :
    Except String (List Bytes) :=
  match postprocessors with
  | [] => .ok []
  | head :: tail =>
    match head.finish none with
    | .error e => .error e
    | .ok d => flushLoop tail d

/-- The executor's inner loop accumulates exactly the in-order
concatenation the spec describes. -/
theorem postprocessInner_eq_fanOut (pp : Postprocessor)
    (ingres_ns egress_ns : Nat) (streamAlias : String) :
    ∀ (ds acc : List Bytes),
      postprocessInner pp ingres_ns egress_ns streamAlias ds acc =
        (stageFanOut pp ingres_ns egress_ns streamAlias ds).map (acc ++ ·) := by
  intro ds
  induction ds with
  | nil => intro acc; simp [postprocessInner, stageFanOut, Except.map]
  | cons d ds ih =>
    intro acc
    simp only [postprocessInner, stageFanOut]
    cases Except.mapError (enrichErr streamAlias) (pp.process ingres_ns egress_ns d) with
    | error e => simp [Except.map]
    | ok r =>
      simp only [ih (acc ++ r)]
      cases stageFanOut pp ingres_ns egress_ns streamAlias ds with
      | error e => simp [Except.map]
      | ok rest => simp [Except.map]

/-- The executor's outer loop is the spec's fold. -/
theorem postprocessLoop_eq_chainExecLoop (ingres_ns egress_ns : Nat)
    (streamAlias : String) :
    ∀ (pps : List Postprocessor) (ws : List Bytes),
      postprocessLoop ingres_ns egress_ns streamAlias pps ws =
        chainExecLoop ingres_ns egress_ns streamAlias pps ws := by
  intro pps
  induction pps with
  | nil => intro ws; rfl
  | cons pp rest ih =>
    intro ws
    simp only [postprocessLoop, chainExecLoop,
      postprocessInner_eq_fanOut pp ingres_ns egress_ns streamAlias ws []]
    cases stageFanOut pp ingres_ns egress_ns streamAlias ws with
    | error e => simp [Except.map]
    | ok ws1 => simpa [Except.map] using ih ws1

/-- C1: for every chain, both timestamps, every payload and every label,
`postprocess` equals the spec's algorithm: seed the working set with the
single input payload and, stage by stage in chain order, replace it with
the in-order concatenation of the per-buffer `process` outputs; the
final working set is the result. -/
theorem postprocess_eq_chainExecSpec (pps : List Postprocessor)
    (ingres_ns egress_ns : Nat) (data : Bytes) (streamAlias : String) :
    postprocess pps ingres_ns egress_ns data streamAlias =
      chainExecSpec pps ingres_ns egress_ns data streamAlias :=
  postprocessLoop_eq_chainExecLoop ingres_ns egress_ns streamAlias pps [data]

/-- C9: an empty chain returns exactly one frame, the input payload,
for every pair of timestamps and every label. -/
theorem postprocess_nil_chain (ingres_ns egress_ns : Nat) (data : Bytes)
    (streamAlias : String) :
    postprocess [] ingres_ns egress_ns data streamAlias = .ok [data] := rfl

/-- The flush inner loop accumulates exactly the in-order concatenation
the spec describes. -/
theorem finishInner_eq_fanOut (pp : Postprocessor) :
    ∀ (ds acc : List Bytes),
      finishInner pp ds acc = (flushFanOut pp ds).map (acc ++ ·) := by
  intro ds
  induction ds with
  | nil => intro acc; simp [finishInner, flushFanOut, Except.map]
  | cons d ds ih =>
    intro acc
    simp only [finishInner, flushFanOut]
    cases pp.finish (some d) with
    | error e => simp [Except.map]
    | ok r =>
      simp only [ih (acc ++ r)]
      cases flushFanOut pp ds with
      | error e => simp [Except.map]
      | ok rest => simp [Except.map]

/-- The result component of the flush tail loop is the spec's fold. -/
theorem finishLoop_snd_eq_flushLoop (streamAlias : String) :
    ∀ (pps : List Postprocessor) (ws : List Bytes),
      (finishLoop streamAlias pps ws).2 = flushLoop pps ws := by
  intro pps
  induction pps with
  | nil => intro ws; rfl
  | cons pp rest ih =>
    intro ws
    simp only [finishLoop, flushLoop, finishInner_eq_fanOut pp ws []]
    cases flushFanOut pp ws with
    | error e => simp [Except.map]
    | ok ws1 => simpa [Except.map] using ih ws1

/-- C3: for every chain and every label, `finish` returns an empty
sequence on the empty chain and otherwise seeds the working set with the
first stage's `finish(None)` and folds the remaining stages over it,
invoking `finish(Some(_))` once per held buffer and concatenating the
results in order — exactly the executor's fold, on the terminal
operation. -/
theorem finish_eq_flushSpec (pps : List Postprocessor) (streamAlias : String) :
    (finish pps streamAlias).2 = flushSpec pps := by
  cases pps with
  | nil => rfl
  | cons head tail =>
    simp only [finish, flushSpec]
    cases head.finish none with
    | error e => rfl
    | ok d => exact finishLoop_snd_eq_flushLoop streamAlias tail d

/-- Whether `needle` is an initial segment of `hay`. -/
def startsWith : Bytes → Bytes → Bool
  | [], _ => true
  | _ :: _, [] => false
  | a :: as, b :: bs => a == b && startsWith as bs

/-- Whether `needle` occurs contiguously anywhere inside `hay`. -/
def subListOf (needle : Bytes) : Bytes → Bool
  | [] => startsWith needle []
  | b :: bs => startsWith needle (b :: bs) || subListOf needle bs

/-- A stage whose `process` always fails with error text `boom`; used to
exercise the executor's error path. -/
def failStage : Postprocessor :=
  { name := "boomstage", process := fun _ _ _ => .error "boom",
    finish := defaultFinish }

/-- A successful run of the executor loop over a chain extends through
appended stages by continuing from the produced working set. -/
theorem postprocessLoop_append (ingres_ns egress_ns : Nat)
    (streamAlias : String) :
    ∀ (t1 rest : List Postprocessor) (ws bufs : List Bytes),
      postprocessLoop ingres_ns egress_ns streamAlias t1 ws = .ok bufs →
      postprocessLoop ingres_ns egress_ns streamAlias (t1 ++ rest) ws =
        postprocessLoop ingres_ns egress_ns streamAlias rest bufs := by
  intro t1
  induction t1 with
  | nil =>
    intro rest ws bufs h
    simp only [postprocessLoop] at h
    cases h
    rfl
  | cons pp t1 ih =>
    intro rest ws bufs h
    simp only [postprocessLoop, List.cons_append] at h ⊢
    cases hInner : postprocessInner pp ingres_ns egress_ns streamAlias ws [] with
    | error e => rw [hInner] at h; exact absurd h (by simp)
    | ok d => rw [hInner] at h; exact ih rest d bufs h

/-- A failed executor inner loop pinpoints a buffer on which the stage's
`process` failed, and the propagated error is that failure enriched with
the stream label. -/
theorem postprocessInner_error (pp : Postprocessor)
    (ingres_ns egress_ns : Nat) (streamAlias : String) :
    ∀ (ds acc : List Bytes) (msg : String),
      postprocessInner pp ingres_ns egress_ns streamAlias ds acc = .error msg →
      ∃ b, b ∈ ds ∧ ∃ e0, pp.process ingres_ns egress_ns b = .error e0 ∧
        msg = enrichErr streamAlias e0 := by
  intro ds
  induction ds with
  | nil => intro acc msg h; exact absurd h (by simp [postprocessInner])
  | cons d ds ih =>
    intro acc msg h
    simp only [postprocessInner] at h
    cases hp : pp.process ingres_ns egress_ns d with
    | error e0 =>
      rw [hp] at h
      simp only [Except.mapError] at h
      cases h
      exact ⟨d, List.mem_cons_self d ds, e0, hp, rfl⟩
    | ok r =>
      rw [hp] at h
      simp only [Except.mapError] at h
      obtain ⟨b, hb, e0, he0, hmsg⟩ := ih (acc ++ r) msg h
      exact ⟨b, List.mem_cons_of_mem d hb, e0, he0, hmsg⟩

/-- C2 (amended): if, after the stages before `pp` have produced working
set `bufs`, stage `pp` fails while processing `bufs`, then `postprocess`
over the whole chain aborts at once — the result is that error, no
frames, independent of the stages after `pp` — and the propagated error
message is the stage's error enriched with the stream's identifying
label (but not with the stage's name). -/
theorem postprocess_fail_aborts (pre : List Postprocessor)
    (pp : Postprocessor) (post : List Postprocessor)
    (ingres_ns egress_ns : Nat) (data : Bytes) (streamAlias : String)
    (bufs : List Bytes) (msg : String)
    (hpre : postprocessLoop ingres_ns egress_ns streamAlias pre [data] = .ok bufs)
    (hfail : postprocessInner pp ingres_ns egress_ns streamAlias bufs [] = .error msg) :
    postprocess (pre ++ pp :: post) ingres_ns egress_ns data streamAlias = .error msg
    ∧ ∃ b, b ∈ bufs ∧ ∃ e0, pp.process ingres_ns egress_ns b = .error e0 ∧
        msg = enrichErr streamAlias e0 := by
  constructor
  · show postprocessLoop ingres_ns egress_ns streamAlias (pre ++ pp :: post) [data] = .error msg
    rw [postprocessLoop_append ingres_ns egress_ns streamAlias pre (pp :: post) [data] bufs hpre]
    simp only [postprocessLoop, hfail]
  · exact postprocessInner_error pp ingres_ns egress_ns streamAlias bufs [] msg hfail

/-- C2 witness: a one-stage chain whose stage fails with `boom` aborts
with the label-enriched error, produced by the failing `process`. -/
theorem postprocess_fail_aborts_witness :
    postprocessLoop 0 0 "lbl" [] [[42]] = .ok [[42]]
    ∧ postprocessInner failStage 0 0 "lbl" [[42]] [] =
        .error "[Connector::lbl] Postprocessor error boom"
    ∧ (postprocess [failStage] 0 0 [42] "lbl" =
          .error "[Connector::lbl] Postprocessor error boom"
        ∧ ∃ b, b ∈ [[42]] ∧ ∃ e0, failStage.process 0 0 b = .error e0 ∧
            "[Connector::lbl] Postprocessor error boom" = enrichErr "lbl" e0) :=
  ⟨rfl, rfl,
    postprocess_fail_aborts [] failStage [] 0 0 [42] "lbl" [[42]]
      "[Connector::lbl] Postprocessor error boom" rfl rfl⟩

/-- C2 counterexample: the error `postprocess` propagates carries the
stream label but not the failing stage's name — for the stage named
`boomstage` the name appears nowhere in the propagated message. -/
theorem postprocess_error_lacks_stage_name :
    postprocess [failStage] 0 0 [42] "lbl" =
      .error "[Connector::lbl] Postprocessor error boom"
    ∧ failStage.name = "boomstage"
    ∧ subListOf (strBytes "boomstage")
        (strBytes "[Connector::lbl] Postprocessor error boom") = false := by
  refine ⟨rfl, rfl, ?_⟩
  decide

/-- A successful, log-free run of the flush tail loop over a chain
extends through appended stages by continuing from the produced working
set. -/
theorem finishLoop_append (streamAlias : String) :
    ∀ (t1 rest : List Postprocessor) (ws bufs : List Bytes),
      finishLoop streamAlias t1 ws = ([], .ok bufs) →
      finishLoop streamAlias (t1 ++ rest) ws = finishLoop streamAlias rest bufs := by
  intro t1
  induction t1 with
  | nil =>
    intro rest ws bufs h
    simp only [finishLoop] at h
    cases h
    rfl
  | cons pp t1 ih =>
    intro rest ws bufs h
    simp only [finishLoop, List.cons_append] at h ⊢
    cases hInner : finishInner pp ws [] with
    | error e => rw [hInner] at h; exact absurd h (by simp)
    | ok d => rw [hInner] at h; exact ih rest d bufs h

/-- A failed flush inner loop pinpoints a held buffer on which the
stage's `finish` failed, with the error propagated verbatim. -/
theorem finishInner_error (pp : Postprocessor) :
    ∀ (ds acc : List Bytes) (e : String),
      finishInner pp ds acc = .error e →
      ∃ b, b ∈ ds ∧ pp.finish (some b) = .error e := by
  intro ds
  induction ds with
  | nil => intro acc e h; exact absurd h (by simp [finishInner])
  | cons d ds ih =>
    intro acc e h
    simp only [finishInner] at h
    cases hf : pp.finish (some d) with
    | error e0 =>
      rw [hf] at h
      cases h
      exact ⟨d, List.mem_cons_self d ds, hf⟩
    | ok r =>
      rw [hf] at h
      obtain ⟨b, hb, hbe⟩ := ih (acc ++ r) e h
      exact ⟨b, List.mem_cons_of_mem d hb, hbe⟩

/-- C4: a failing `finish` aborts the flush — the stages after the
failing one are never reached, the overall result is the bare error
(zero frames; anything earlier stages produced in this pass is
discarded), and the failure is reported in the log with the failing
stage's name. Stated for the first stage failing on `finish(None)` and
for a later stage failing while flushing the held buffers. -/
theorem finish_fail_reports_name :
    (∀ (head : Postprocessor) (tail : List Postprocessor)
        (streamAlias e : String),
      head.finish none = .error e →
      finish (head :: tail) streamAlias =
        ([finishErrLine streamAlias head.name e], .error e))
    ∧ (∀ (head : Postprocessor) (t1 : List Postprocessor)
        (pp : Postprocessor) (t2 : List Postprocessor)
        (streamAlias : String) (d bufs : List Bytes) (e : String),
      head.finish none = .ok d →
      finishLoop streamAlias t1 d = ([], .ok bufs) →
      finishInner pp bufs [] = .error e →
      finish (head :: (t1 ++ pp :: t2)) streamAlias =
          ([finishErrLine streamAlias pp.name e], .error e)
        ∧ ∃ b, b ∈ bufs ∧ pp.finish (some b) = .error e) := by
  constructor
  · intro head tail streamAlias e h
    simp only [finish, h]
  · intro head t1 pp t2 streamAlias d bufs e hHead hT1 hFail
    constructor
    · simp only [finish, hHead]
      rw [finishLoop_append streamAlias t1 (pp :: t2) d bufs hT1]
      simp only [finishLoop, hFail]
    · exact finishInner_error pp bufs [] e hFail

/-- A stage whose `finish(None)` emits one buffer, used to feed the
flush pass in tests of the failure path. -/
def flushyStage : Postprocessor :=
  { name := "flushy", process := fun _ _ d => .ok [d],
    finish := fun x => .ok (match x with | none => [[7]] | some d => [d]) }

/-- A stage whose `finish` always fails with error text `bad`. -/
def failFinishStage : Postprocessor :=
  { name := "badfinish", process := fun _ _ d => .ok [d],
    finish := fun _ => .error "bad" }

/-- C4 witness: a two-stage chain where the second stage's `finish`
fails on the buffer flushed by the first; the flush aborts with the bare
error, no frames, and the log line carries the failing stage's name. -/
theorem finish_fail_reports_name_witness :
    flushyStage.finish none = .ok [[7]]
    ∧ finishLoop "lbl" [] [[7]] = ([], .ok [[7]])
    ∧ finishInner failFinishStage [[7]] [] = .error "bad"
    ∧ (finish [flushyStage, failFinishStage] "lbl" =
          ([finishErrLine "lbl" "badfinish" "bad"], .error "bad")
        ∧ ∃ b, b ∈ [[7]] ∧ failFinishStage.finish (some b) = .error "bad") :=
  ⟨rfl, rfl, rfl,
    finish_fail_reports_name.2 flushyStage [] failFinishStage [] "lbl"
      [[7]] [[7]] "bad" rfl rfl rfl⟩

/-- Whether a lookup result is a constructed stage. -/
def isOkPP : Except String Postprocessor → Bool
  | .ok _ => true
  | .error _ => false

/-- External transforms instantiated trivially, for concrete runs of the
registry (the registry's control flow never inspects them). -/
def trivLibs : ExternalLibs :=
  { gzip := fun d => .ok d, zlib := fun d => .ok d, xz2 := fun d => .ok d,
    snappy := fun d => .ok d, lz4 := fun d => .ok d, zstd := fun d => .ok d,
    gelf := fun d => .ok [d] }

/-- C5: looking up the unrecognized name `snot` fails with an error
naming it, and `make_postprocessors` short-circuits at the first
configuration whose lookup fails — provided the earlier configurations
look up successfully, the chain build returns exactly that lookup's
error (and so constructs no chain). -/
theorem lookup_unknown_fails :
    (∀ (libs : ExternalLibs),
      lookup libs "snot" = .error "Postprocessor \x27snot\x27 not found.")
    ∧ ∀ (libs : ExternalLibs) (pre : List PostprocessorConfig)
        (cfg : PostprocessorConfig) (post : List PostprocessorConfig)
        (msg : String),
      pre.all (fun c => isOkPP (lookup_with_config libs c)) = true →
      lookup_with_config libs cfg = .error msg →
      make_postprocessors libs (pre ++ cfg :: post) = .error msg := by
  constructor
  · intro libs; rfl
  · intro libs pre
    induction pre with
    | nil =>
      intro cfg post msg _ hcfg
      simp only [List.nil_append, make_postprocessors, hcfg]
    | cons c pre ih =>
      intro cfg post msg hall hcfg
      simp only [List.all_cons, Bool.and_eq_true] at hall
      cases hc : lookup_with_config libs c with
      | error e => rw [hc] at hall; exact absurd hall.1 (by simp [isOkPP])
      | ok pp =>
        rw [List.cons_append]
        simp only [make_postprocessors, hc]
        rw [ih cfg post msg hall.2 hcfg]
        rfl

/-- C5 witness: the chain `[base64, snot, lines]` fails to build,
reporting the unknown name `snot`. -/
theorem lookup_unknown_fails_witness :
    ([PostprocessorConfig.mk "base64" none]).all
        (fun c => isOkPP (lookup_with_config trivLibs c)) = true
    ∧ lookup_with_config trivLibs ⟨"snot", none⟩ =
        .error "Postprocessor \x27snot\x27 not found."
    ∧ make_postprocessors trivLibs
        [⟨"base64", none⟩, ⟨"snot", none⟩, ⟨"lines", none⟩] =
        .error "Postprocessor \x27snot\x27 not found." :=
  ⟨rfl, rfl,
    lookup_unknown_fails.2 trivLibs [⟨"base64", none⟩] ⟨"snot", none⟩
      [⟨"lines", none⟩] "Postprocessor \x27snot\x27 not found." rfl rfl⟩

/-- Decoding the 8 bytes written big-endian for a value below `2^64`
recovers the value, whatever follows them. -/
theorem decodeU64BE_u64BE (n : Nat) (rest : Bytes)
    (h : n < 18446744073709551616) :
    decodeU64BE (u64BE n ++ rest) = n := by
  simp only [u64BE, List.cons_append, decodeU64BE]
  omega

/-- C6: `LengthPrefix` emits exactly one frame — the 8-byte big-endian
payload length followed by the payload — and decoding that 8-byte
big-endian prefix recovers the payload length (which in the source is a
`usize`, hence below `2^64`). -/
theorem lengthPrefix_roundTrip (ingres_ns egress_ns : Nat) (data : Bytes) :
    LengthPrefix.process ingres_ns egress_ns data =
      .ok [u64BE data.length ++ data]
    ∧ (data.length < 18446744073709551616 →
        decodeU64BE (u64BE data.length ++ data) = data.length) :=
  ⟨rfl, fun h => decodeU64BE_u64BE data.length data h⟩

/-- C6 witness: the 3-byte payload `[5, 6, 7]` round-trips its length
through the 8-byte big-endian prefix. -/
theorem lengthPrefix_roundTrip_witness :
    ([5, 6, 7] : Bytes).length < 18446744073709551616
    ∧ decodeU64BE (u64BE ([5, 6, 7] : Bytes).length ++ [5, 6, 7]) =
        ([5, 6, 7] : Bytes).length :=
  ⟨by decide, (lengthPrefix_roundTrip 0 0 [5, 6, 7]).2 (by decide)⟩

/-- C7: `TextualLength` emits exactly one frame — the decimal ASCII text
of the payload length, one space byte (32), then the payload — and on
input `[1, 2, 3]` that frame is ASCII `3 ` followed by the three raw
bytes. -/
theorem textualLength_frame (ingres_ns egress_ns : Nat) (data : Bytes) :
    TextualLength.process ingres_ns egress_ns data =
      .ok [strBytes (Nat.repr data.length) ++ 32 :: data]
    ∧ TextualLength.process 42 23 [1, 2, 3] =
        .ok [strBytes "3 " ++ [1, 2, 3]] :=
  ⟨rfl, rfl⟩

/-- C8: `Base64` emits one frame, the standard padded base64 encoding of
the input — empty on empty input, ASCII `c25vdA==` on input `snot` — and
every stateless stage's `finish(None)` is the trait default, the empty
sequence. -/
theorem base64_and_stateless_finish (libs : ExternalLibs)
    (ingres_ns egress_ns : Nat) :
    Base64.process ingres_ns egress_ns [] = .ok [[]]
    ∧ Base64.process ingres_ns egress_ns (strBytes "snot") =
        .ok [strBytes "c25vdA=="]
    ∧ (∀ data, Base64.process ingres_ns egress_ns data =
        .ok [base64Encode data])
    ∧ base64Stage.finish none = .ok []
    ∧ lengthPrefixStage.finish none = .ok []
    ∧ textualLengthStage.finish none = .ok []
    ∧ attachIngresTsStage.finish none = .ok []
    ∧ (gzipStage libs).finish none = .ok []
    ∧ (zlibStage libs).finish none = .ok []
    ∧ (xz2Stage libs).finish none = .ok []
    ∧ (snappyStage libs).finish none = .ok []
    ∧ (lz4Stage libs).finish none = .ok []
    ∧ (zstdStage libs).finish none = .ok [] := by
  refine ⟨rfl, ?_, fun _ => rfl, rfl, rfl, rfl, rfl, rfl, rfl, rfl, rfl,
    rfl, rfl⟩
  have h : base64Encode (strBytes "snot") = strBytes "c25vdA==" := by decide
  simp only [Base64.process, h]

/-- C10: the canonical `name()` of a stage can differ from the registry
key that constructed it — `length-prefixed` constructs a stage named
`length-prefix`, and `ingest-ns` constructs a stage named
`attach-ingress-ts`. -/
theorem stage_name_differs_from_key (libs : ExternalLibs) :
    (lookup_with_config libs ⟨"length-prefixed", none⟩).map
        Postprocessor.name = .ok "length-prefix"
    ∧ (lookup_with_config libs ⟨"ingest-ns", none⟩).map
        Postprocessor.name = .ok "attach-ingress-ts"
    ∧ "length-prefix" ≠ "length-prefixed"
    ∧ "attach-ingress-ts" ≠ "ingest-ns" :=
  ⟨rfl, rfl, by decide, by decide⟩

end Tremor
